import Mathlib

/- Formal model of the YNAB Home Assistant integration
   (custom_components/ynab/__init__.py).

   The integration's shared data store (hass.data[DOMAIN_DATA]) is modelled as
   a shadowing association list from string keys to rational values: a Python
   dict write `d[k] = v` is modelled by prepending `(k, v)`, and a dict read by
   the first matching entry, which gives exactly the overwrite semantics of the
   dict as far as reads are concerned.  Python's true division of integer
   milliunit amounts by 1000 is modelled as exact division in ℚ.

   The refresh routine `update_data` is modelled stage by stage in source
   order; exceptions that escape it (the AttributeError from the misspelled
   `_LOGGER.errors` call on the empty-budgets branch, and the IndexError from
   `months[0]` on an empty month list) are modelled by `Except.error` carrying
   the message together with the store at the moment the exception is raised,
   so that partial-write behaviour is preserved.  `request_import` wraps its
   whole body in `try/except Exception`, so it is modelled as a total function
   from the outcome of the HTTP call to the list of events fired. -/

namespace Ynab

/-- The shared data store `hass.data[DOMAIN_DATA]`: a shadowing association
list; the most recent write to a key is the first entry with that key. -/
abbrev Store := List (String × ℚ)

/-- Dict read: value of the first (most recent) entry for the key. -/
def storeGet (s : Store) (k : String) : Option ℚ :=
  (s.find? (fun p => p.1 == k)).map (fun p => p.2)

/-- Dict write `s[k] = v`, modelled by shadowing. -/
def storeSet (s : Store) (k : String) (v : ℚ) : Store :=
  (k, v) :: s

/-- A transaction as read off the fetched budget (fields used by the code). -/
structure Transaction where
  amount : ℤ
  approved : Bool
  cleared : String
deriving DecidableEq

/-- An account as read off the fetched budget (fields used by the code). -/
structure Account where
  name : String
  balance : ℤ
  on_budget : Bool
deriving DecidableEq

/-- A category of a month as read off the fetched budget. -/
structure Category where
  name : String
  balance : ℤ
  budgeted : ℤ
deriving DecidableEq

/-- A month of the fetched budget (fields used by the code). -/
structure Month where
  month : String
  to_be_budgeted : ℤ
  budgeted : ℤ
  activity : ℤ
  age_of_money : ℤ
  categories : List Category
deriving DecidableEq

/-- The detailed budget returned by `get_budget` (fields used by the code). -/
structure Budget where
  id : String
  accounts : List Account
  months : List Month
  transactions : List Transaction
deriving DecidableEq

/-- A budget summary from the `get_budgets` listing. -/
structure BudgetSummary where
  name : String
  id : String
deriving DecidableEq

/-- The configured account and category name lists
(`self.accounts`, `self.categories`). -/
structure Config where
  accounts : List String
  categories : List String
deriving DecidableEq

/-- Modelled from the spec: the integration domain constant (defined in
`const.py`, which is not part of the sources); only used to form the event
topic string, whose exact value no claim depends on. -/
def DOMAIN : String := "ynab"

/-- An event fired on the host event bus
(`hass.bus.async_fire(topic, {"transactions_imported": n})`). -/
structure Event where
  topic : String
  transactions_imported : ℕ
deriving DecidableEq

/-- The response of the forced-import HTTP POST, as far as the code reads it:
the status code, the parse result of the JSON body projected to the
`data.transaction_ids` list (`Except.error` when reading or parsing the body
raises), and the optional `X-Rate-Limit` header (reading a missing header
raises `KeyError`). -/
structure ImportResponse where
  status : ℕ
  body : Except String (List String)
  rate_limit_header : Option String

/-- Outcome of the forced-import HTTP call: a response, or an exception raised
while connecting or posting. -/
inductive HttpResult where
  | resp (r : ImportResponse)
  | exn (msg : String)

/-- `YnabData.request_import`: the whole body is wrapped in
`try ... except Exception`, so the function always returns normally; it fires
the `<domain>_event` event exactly when the POST yields status 200 or 201, the
body parses, the `X-Rate-Limit` header is present (it is read for a debug log
before the event is fired), and the imported transaction id list is nonempty.
It never writes the shared data store, which is threaded through unchanged. -/
def request_import (res : HttpResult) (s : Store) : List Event × Store :=
  match res with
  | .exn _ => ([], s)
  | .resp r =>
    if r.status = 200 ∨ r.status = 201 then
      match r.body with
      | .error _ => ([], s)
      | .ok ids =>
        match r.rate_limit_header with
        | none => ([], s)
        | some _ =>
          if ids.length > 0 then
            ([⟨DOMAIN ++ "_event", ids.length⟩], s)
          else ([], s)
    else ([], s)

/-- Number of unapproved transactions
(`transaction.approved is not True`). -/
def need_approval_count (b : Budget) : ℕ :=
  (b.transactions.filter (fun t => !t.approved)).length

/-- Number of uncleared transactions (`transaction.cleared == "uncleared"`). -/
def uncleared_count (b : Budget) : ℕ :=
  (b.transactions.filter (fun t => t.cleared == "uncleared")).length

/-- The running-total loop over accounts:
`if account.on_budget: total_balance += account.balance`. -/
def total_balance_milli (accs : List Account) : ℤ :=
  accs.foldl (fun t a => if a.on_budget then t + a.balance else t) 0

/-- The per-account publishing loop: skip accounts whose name is not in the
configured accounts list, publish `account.balance / 1000` under the account
name for the rest. -/
def accountsStage (cfg : Config) (accs : List Account) (s : Store) : Store :=
  accs.foldl
    (fun s a =>
      if a.name ∈ cfg.accounts then
        storeSet s a.name ((a.balance : ℚ) / 1000)
      else s)
    s

/-- Keys written by `accountsStage`: the names of the accounts that are in the
configured accounts list, in loop order. -/
def accountKeys (cfg : Config) (accs : List Account) : List String :=
  (accs.filter (fun a => decide (a.name ∈ cfg.accounts))).map (fun a => a.name)

/-- The per-category publishing loop of the matching month: skip categories
whose name is not in the configured categories list, publish
`category.balance / 1000` under the category name and
`category.budgeted / 1000` under the name suffixed `_budgeted` for the rest. -/
def categoriesStage (cfg : Config) (cats : List Category) (s : Store) : Store :=
  cats.foldl
    (fun s c =>
      if c.name ∈ cfg.categories then
        storeSet (storeSet s c.name ((c.balance : ℚ) / 1000))
          (c.name ++ "_budgeted") ((c.budgeted : ℚ) / 1000)
      else s)
    s

/-- Keys written by `categoriesStage`. -/
def categoryKeys (cfg : Config) (cats : List Category) : List String :=
  (cats.filter (fun c => decide (c.name ∈ cfg.categories))).flatMap
    (fun c => [c.name, c.name ++ "_budgeted"])

/-- Number of overspent categories (`category.balance < 0`). -/
def overspent_count (cats : List Category) : ℕ :=
  (cats.filter (fun c => decide (c.balance < 0))).length

/-- The body of the month loop, run for a month whose `month` field equals
today's `%Y-%m-01` date string: the four fixed month metrics followed by the
per-category publishing loop. -/
def monthBody (cfg : Config) (m : Month) (s : Store) : Store :=
  let s := storeSet s "budgeted_this_month" ((m.budgeted : ℚ) / 1000)
  let s := storeSet s "activity_this_month" ((m.activity : ℚ) / 1000)
  let s := storeSet s "age_of_money" (m.age_of_money : ℚ)
  let s := storeSet s "overspent_categories" (overspent_count m.categories : ℚ)
  categoriesStage cfg m.categories s

/-- The month loop: skip months whose `month` field differs from today's
`%Y-%m-01` string, run `monthBody` for the rest. -/
def monthsStage (cfg : Config) (today : String) (months : List Month)
    (s : Store) : Store :=
  months.foldl (fun s m => if m.month = today then monthBody cfg m s else s) s

/-- The four keys written before the account loop. -/
def earlyKeys : List String :=
  ["to_be_budgeted", "need_approval", "uncleared_transactions", "total_balance"]

/-- The four fixed keys written by the month body before its category loop. -/
def monthFixedKeys : List String :=
  ["budgeted_this_month", "activity_this_month", "age_of_money",
   "overspent_categories"]

/-- Message of the exception raised on the empty-budgets branch: the code
calls `_LOGGER.errors(...)`, an attribute that does not exist on the logger,
so the attribute lookup raises before anything is published. -/
def attribute_error_msg : String :=
  "AttributeError: Logger object has no attribute errors"

/-- Message of the exception raised by `months[0]` on an empty month list. -/
def index_error_msg : String := "IndexError: list index out of range"

/-- The body of `YnabData.update_data` after the forced import and the two
fetches, in source order.  `all_budgets` is the fetched budget list,
`b` the fetched detailed budget, `today` today's date formatted `%Y-%m-01`.
An escaping exception is modelled as `Except.error` carrying the message and
the store at the moment it is raised. -/
def update_core (cfg : Config) (all_budgets : List BudgetSummary) (b : Budget)
    (today : String) (s : Store) : Except (String × Store) Store :=
  if all_budgets.isEmpty then
    .error (attribute_error_msg, s)
  else
    match b.months.head? with
    | none => .error (index_error_msg, s)
    | some m0 =>
      let s := storeSet s "to_be_budgeted" ((m0.to_be_budgeted : ℚ) / 1000)
      let s := storeSet s "need_approval" (need_approval_count b : ℚ)
      let s := storeSet s "uncleared_transactions" (uncleared_count b : ℚ)
      let s := storeSet s "total_balance"
        ((total_balance_milli b.accounts : ℚ) / 1000)
      let s := accountsStage cfg b.accounts s
      let s := monthsStage cfg today b.months s
      .ok s

/-- `YnabData.update_data`: the forced import runs first (it never raises and
never writes the store, only possibly fires events), then the refresh body. -/
def update_data (cfg : Config) (imp : HttpResult)
    (all_budgets : List BudgetSummary) (b : Budget) (today : String)
    (s : Store) : Except (String × Store) (List Event × Store) :=
  let p := request_import imp s
  match update_core cfg all_budgets b today p.2 with
  | .error e => .error e
  | .ok s2 => .ok (p.1, s2)

/-- `check_files`: a required file is missing when no file exists at the base
path (the integration's directory under the host configuration path) followed
by its name; the function returns False exactly when the missing list is
nonempty. -/
def check_files (base : String) (required : List String)
    (pathExists : String → Bool) : Bool :=
  let missing := required.filter (fun f => !pathExists (base ++ f))
  if !missing.isEmpty then false else true

/-- Observable outcome of `async_setup`: its return value, whether the shared
data dictionary was created, whether the `YnabData` client was constructed,
and the platforms whose loading was scheduled. -/
structure SetupOutcome where
  result : Bool
  data_dict_created : Bool
  client_created : Bool
  platforms_scheduled : List String
deriving DecidableEq

/-- `async_setup` control flow: the file check and then the URL check each
abort with False before the data dictionary, the client, or any platform load
task is created; otherwise everything is created and it returns True. -/
def async_setup (file_check url_check : Bool) (platforms : List String) :
    SetupOutcome :=
  if file_check = false then ⟨false, false, false, []⟩
  else if url_check = false then ⟨false, false, false, []⟩
  else ⟨true, true, true, platforms⟩

/-- `MIN_TIME_BETWEEN_UPDATES = timedelta(seconds=300)`. -/
def MIN_TIME_BETWEEN_UPDATES : ℕ := 300

/-- State of the throttle wrapper: the time of the last executed refresh. -/
structure ThrottleState where
  last_called : Option ℕ
deriving DecidableEq

/-- Modelled from the spec: the host-platform `Throttle` utility applied to
`update_data` (the decorator itself is host code, not part of the sources);
per the spec it is "a time-based throttle preventing refreshes more often than
every 300 seconds": an invocation at time `now` runs the wrapped refresh and
records `now` exactly when no previous run is recorded or at least
`MIN_TIME_BETWEEN_UPDATES` seconds have passed since the recorded run;
otherwise it skips the refresh and leaves the state unchanged.  The returned
boolean says whether the refresh ran. -/
def throttle_invoke (st : ThrottleState) (now : ℕ) : Bool × ThrottleState :=
  match st.last_called with
  | none => (true, ⟨some now⟩)
  | some t =>
    if now < t + MIN_TIME_BETWEEN_UPDATES then (false, st)
    else (true, ⟨some now⟩)

/-- A small concrete configuration used to evaluate the model. -/
def wCfg : Config := ⟨["Checking"], ["Food"]⟩

/-- Concrete accounts: one configured on-budget account, one unconfigured
off-budget account. -/
def wAccounts : List Account :=
  [⟨"Checking", 1500, true⟩, ⟨"Savings", 2000, false⟩]

/-- Concrete categories: one configured, overspent category. -/
def wCategories : List Category := [⟨"Food", -250, 300⟩]

/-- A concrete month whose `month` field is the sample current date. -/
def wMonth : Month := ⟨"2025-10-01", 100, 400, -150, 30, wCategories⟩

/-- A concrete fetched budget. -/
def wBudget : Budget :=
  ⟨"bid", wAccounts, [wMonth], [⟨-100, false, "uncleared"⟩]⟩

/-- A concrete nonempty budget summary list. -/
def wAll : List BudgetSummary := [⟨"My Budget", "bid"⟩]

/-- A concrete initial store with one pre-existing key. -/
def wStore : Store := [("seed", (7 : ℚ))]

/-- The store produced by a concrete successful refresh on the matching
date. -/
def wResult : Store :=
  match update_core wCfg wAll wBudget "2025-10-01" wStore with
  | .ok s => s
  | .error _ => []

/-- The store produced by a concrete successful refresh on a date matching
no fetched month. -/
def wResultNoMatch : Store :=
  match update_core wCfg wAll wBudget "1999-01-01" wStore with
  | .ok s => s
  | .error _ => []

theorem storeGet_set_self (s : Store) (k : String) (v : ℚ) :
    storeGet (storeSet s k v) k = some v := by
  simp [storeGet, storeSet, List.find?_cons]

theorem storeGet_set_ne (s : Store) (k k' : String) (v : ℚ) (h : k' ≠ k) :
    storeGet (storeSet s k v) k' = storeGet s k' := by
  simp [storeGet, storeSet, List.find?_cons, Ne.symm h]

theorem request_import_snd (r : HttpResult) (s : Store) :
    (request_import r s).2 = s := by
  rcases r with ⟨st, b, h⟩ | m
  · unfold request_import
    dsimp only
    split
    · rcases b with e | ids
      · rfl
      · rcases h with _ | v
        · rfl
        · dsimp only
          split <;> rfl
    · rfl
  · rfl

theorem accountsStage_cons (cfg : Config) (a : Account) (t : List Account)
    (s : Store) :
    accountsStage cfg (a :: t) s =
      accountsStage cfg t
        (if a.name ∈ cfg.accounts then
          storeSet s a.name ((a.balance : ℚ) / 1000)
         else s) := rfl

theorem accountKeys_cons (cfg : Config) (a : Account) (t : List Account) :
    accountKeys cfg (a :: t) =
      if a.name ∈ cfg.accounts then a.name :: accountKeys cfg t
      else accountKeys cfg t := by
  by_cases hc : a.name ∈ cfg.accounts <;>
    simp [accountKeys, List.filter_cons, hc]

theorem mem_accountKeys (cfg : Config) (accs : List Account) (n : String) :
    n ∈ accountKeys cfg accs ↔
      ∃ a ∈ accs, a.name = n ∧ a.name ∈ cfg.accounts := by
  simp only [accountKeys, List.mem_map, List.mem_filter, decide_eq_true_eq]
  constructor
  · rintro ⟨a, ⟨ha, hc⟩, hn⟩
    exact ⟨a, ha, hn, hc⟩
  · rintro ⟨a, ha, hn, hc⟩
    exact ⟨a, ⟨ha, hc⟩, hn⟩

theorem accountsStage_get_not_mem (cfg : Config) (accs : List Account)
    (s : Store) (n : String) (h : n ∉ accountKeys cfg accs) :
    storeGet (accountsStage cfg accs s) n = storeGet s n := by
  induction accs generalizing s with
  | nil => rfl
  | cons a t ih =>
    rw [accountKeys_cons] at h
    rw [accountsStage_cons]
    by_cases hc : a.name ∈ cfg.accounts
    · rw [if_pos hc] at h
      rw [if_pos hc]
      have h1 : n ∉ accountKeys cfg t := fun hm => h (List.mem_cons_of_mem _ hm)
      have h2 : n ≠ a.name := fun he => h (he ▸ List.mem_cons_self _ _)
      rw [ih _ h1, storeGet_set_ne _ _ _ _ h2]
    · rw [if_neg hc] at h
      rw [if_neg hc]
      exact ih _ h

theorem accountsStage_get_mem (cfg : Config) (accs : List Account) (s : Store)
    (a : Account) (hnd : (accountKeys cfg accs).Nodup) (ha : a ∈ accs)
    (hc : a.name ∈ cfg.accounts) :
    storeGet (accountsStage cfg accs s) a.name =
      some ((a.balance : ℚ) / 1000) := by
  induction accs generalizing s with
  | nil => cases ha
  | cons b t ih =>
    rw [accountsStage_cons]
    rcases List.mem_cons.mp ha with rfl | hat
    · rw [if_pos hc]
      have hnt : a.name ∉ accountKeys cfg t := by
        rw [accountKeys_cons, if_pos hc] at hnd
        exact (List.nodup_cons.mp hnd).1
      rw [accountsStage_get_not_mem _ _ _ _ hnt, storeGet_set_self]
    · have hndt : (accountKeys cfg t).Nodup := by
        rw [accountKeys_cons] at hnd
        split at hnd
        · exact (List.nodup_cons.mp hnd).2
        · exact hnd
      exact ih _ hndt hat

theorem categoriesStage_cons (cfg : Config) (c : Category)
    (t : List Category) (s : Store) :
    categoriesStage cfg (c :: t) s =
      categoriesStage cfg t
        (if c.name ∈ cfg.categories then
          storeSet (storeSet s c.name ((c.balance : ℚ) / 1000))
            (c.name ++ "_budgeted") ((c.budgeted : ℚ) / 1000)
         else s) := rfl

theorem categoryKeys_cons (cfg : Config) (c : Category) (t : List Category) :
    categoryKeys cfg (c :: t) =
      if c.name ∈ cfg.categories then
        c.name :: (c.name ++ "_budgeted") :: categoryKeys cfg t
      else categoryKeys cfg t := by
  by_cases hc : c.name ∈ cfg.categories <;>
    simp [categoryKeys, List.filter_cons, hc]

theorem mem_categoryKeys (cfg : Config) (cats : List Category) (n : String) :
    n ∈ categoryKeys cfg cats ↔
      ∃ c ∈ cats, c.name ∈ cfg.categories ∧
        (n = c.name ∨ n = c.name ++ "_budgeted") := by
  simp only [categoryKeys, List.mem_flatMap, List.mem_filter, decide_eq_true_eq,
    List.mem_cons, List.mem_singleton, List.not_mem_nil, or_false]
  constructor
  · rintro ⟨c, ⟨hcm, hcc⟩, hn⟩
    exact ⟨c, hcm, hcc, hn⟩
  · rintro ⟨c, hcm, hcc, hn⟩
    exact ⟨c, ⟨hcm, hcc⟩, hn⟩

theorem categoriesStage_get_not_mem (cfg : Config) (cats : List Category)
    (s : Store) (n : String) (h : n ∉ categoryKeys cfg cats) :
    storeGet (categoriesStage cfg cats s) n = storeGet s n := by
  induction cats generalizing s with
  | nil => rfl
  | cons c t ih =>
    rw [categoryKeys_cons] at h
    rw [categoriesStage_cons]
    by_cases hc : c.name ∈ cfg.categories
    · rw [if_pos hc] at h
      rw [if_pos hc]
      have h1 : n ∉ categoryKeys cfg t := fun hm =>
        h (List.mem_cons_of_mem _ (List.mem_cons_of_mem _ hm))
      have h2 : n ≠ c.name := fun he => h (he ▸ List.mem_cons_self _ _)
      have h3 : n ≠ c.name ++ "_budgeted" := fun he =>
        h (List.mem_cons_of_mem _ (he ▸ List.mem_cons_self _ _))
      rw [ih _ h1, storeGet_set_ne _ _ _ _ h3, storeGet_set_ne _ _ _ _ h2]
    · rw [if_neg hc] at h
      rw [if_neg hc]
      exact ih _ h

theorem categoriesStage_get_mem (cfg : Config) (cats : List Category)
    (s : Store) (c : Category) (hnd : (categoryKeys cfg cats).Nodup)
    (hc : c ∈ cats) (hcc : c.name ∈ cfg.categories) :
    storeGet (categoriesStage cfg cats s) c.name =
        some ((c.balance : ℚ) / 1000) ∧
      storeGet (categoriesStage cfg cats s) (c.name ++ "_budgeted") =
        some ((c.budgeted : ℚ) / 1000) := by
  induction cats generalizing s with
  | nil => cases hc
  | cons d t ih =>
    rw [categoriesStage_cons]
    rcases List.mem_cons.mp hc with rfl | hct
    · rw [if_pos hcc]
      rw [categoryKeys_cons, if_pos hcc] at hnd
      have hnd1 := List.nodup_cons.mp hnd
      have hnd2 := List.nodup_cons.mp hnd1.2
      have hne : c.name ≠ c.name ++ "_budgeted" := fun he =>
        hnd1.1 (he ▸ List.mem_cons_self _ _)
      have hn1 : c.name ∉ categoryKeys cfg t := fun hm =>
        hnd1.1 (List.mem_cons_of_mem _ hm)
      have hn2 : c.name ++ "_budgeted" ∉ categoryKeys cfg t := hnd2.1
      constructor
      · rw [categoriesStage_get_not_mem _ _ _ _ hn1,
          storeGet_set_ne _ _ _ _ hne, storeGet_set_self]
      · rw [categoriesStage_get_not_mem _ _ _ _ hn2, storeGet_set_self]
    · have hndt : (categoryKeys cfg t).Nodup := by
        rw [categoryKeys_cons] at hnd
        split at hnd
        · exact ((List.nodup_cons.mp (List.nodup_cons.mp hnd).2)).2
        · exact hnd
      exact ih _ hndt hct

theorem monthsStage_cons (cfg : Config) (today : String) (m : Month)
    (t : List Month) (s : Store) :
    monthsStage cfg today (m :: t) s =
      monthsStage cfg today t
        (if m.month = today then monthBody cfg m s else s) := rfl

theorem monthFixedKeys_ne (n : String) (h : n ∉ monthFixedKeys) :
    n ≠ "budgeted_this_month" ∧ n ≠ "activity_this_month" ∧
      n ≠ "age_of_money" ∧ n ≠ "overspent_categories" := by
  simp only [monthFixedKeys, List.mem_cons, List.not_mem_nil, or_false,
    not_or] at h
  exact h

theorem monthBody_get_not_mem (cfg : Config) (m : Month) (s : Store)
    (n : String) (hf : n ∉ monthFixedKeys)
    (hc : n ∉ categoryKeys cfg m.categories) :
    storeGet (monthBody cfg m s) n = storeGet s n := by
  obtain ⟨h1, h2, h3, h4⟩ := monthFixedKeys_ne n hf
  unfold monthBody
  rw [categoriesStage_get_not_mem _ _ _ _ hc, storeGet_set_ne _ _ _ _ h4,
    storeGet_set_ne _ _ _ _ h3, storeGet_set_ne _ _ _ _ h2,
    storeGet_set_ne _ _ _ _ h1]

theorem monthBody_get_budgeted (cfg : Config) (m : Month) (s : Store)
    (hc : "budgeted_this_month" ∉ categoryKeys cfg m.categories) :
    storeGet (monthBody cfg m s) "budgeted_this_month" =
      some ((m.budgeted : ℚ) / 1000) := by
  unfold monthBody
  rw [categoriesStage_get_not_mem _ _ _ _ hc,
    storeGet_set_ne _ _ _ _ (by decide), storeGet_set_ne _ _ _ _ (by decide),
    storeGet_set_ne _ _ _ _ (by decide), storeGet_set_self]

theorem monthBody_get_activity (cfg : Config) (m : Month) (s : Store)
    (hc : "activity_this_month" ∉ categoryKeys cfg m.categories) :
    storeGet (monthBody cfg m s) "activity_this_month" =
      some ((m.activity : ℚ) / 1000) := by
  unfold monthBody
  rw [categoriesStage_get_not_mem _ _ _ _ hc,
    storeGet_set_ne _ _ _ _ (by decide), storeGet_set_ne _ _ _ _ (by decide),
    storeGet_set_self]

theorem monthsStage_get_not_mem (cfg : Config) (today : String)
    (months : List Month) (s : Store) (n : String) (hf : n ∉ monthFixedKeys)
    (hc : ∀ mo ∈ months, mo.month = today →
      n ∉ categoryKeys cfg mo.categories) :
    storeGet (monthsStage cfg today months s) n = storeGet s n := by
  induction months generalizing s with
  | nil => rfl
  | cons m t ih =>
    rw [monthsStage_cons]
    have hct : ∀ mo ∈ t, mo.month = today →
        n ∉ categoryKeys cfg mo.categories :=
      fun mo hmo => hc mo (List.mem_cons_of_mem _ hmo)
    by_cases hm : m.month = today
    · rw [if_pos hm, ih _ hct,
        monthBody_get_not_mem _ _ _ _ hf (hc m (List.mem_cons_self _ _) hm)]
    · rw [if_neg hm, ih _ hct]

theorem monthsStage_filter (cfg : Config) (today : String)
    (months : List Month) (s : Store) :
    monthsStage cfg today months s =
      monthsStage cfg today
        (months.filter (fun mo => decide (mo.month = today))) s := by
  induction months generalizing s with
  | nil => rfl
  | cons m t ih =>
    rw [monthsStage_cons]
    by_cases hm : m.month = today
    · rw [if_pos hm]
      have hfc : (m :: t).filter (fun mo => decide (mo.month = today)) =
          m :: t.filter (fun mo => decide (mo.month = today)) := by
        simp [List.filter_cons, hm]
      rw [hfc, monthsStage_cons, if_pos hm]
      exact ih _
    · rw [if_neg hm]
      have hfc : (m :: t).filter (fun mo => decide (mo.month = today)) =
          t.filter (fun mo => decide (mo.month = today)) := by
        simp [List.filter_cons, hm]
      rw [hfc]
      exact ih _

theorem monthsStage_single (cfg : Config) (today : String)
    (months : List Month) (s : Store) (m : Month)
    (hm : months.filter (fun mo => decide (mo.month = today)) = [m]) :
    monthsStage cfg today months s = monthBody cfg m s := by
  have hmem : m ∈ months.filter (fun mo => decide (mo.month = today)) := by
    rw [hm]; exact List.mem_singleton_self m
  have htoday : m.month = today := by
    simpa using (List.mem_filter.mp hmem).2
  rw [monthsStage_filter, hm, monthsStage_cons, if_pos htoday]
  rfl

theorem total_balance_milli_eq (accs : List Account) :
    total_balance_milli accs =
      ((accs.filter (fun a => a.on_budget)).map (fun a => a.balance)).sum := by
  have key : ∀ z : ℤ,
      accs.foldl (fun t a => if a.on_budget then t + a.balance else t) z =
        z + ((accs.filter (fun a => a.on_budget)).map
              (fun a => a.balance)).sum := by
    induction accs with
    | nil => simp
    | cons a t ih =>
      intro z
      by_cases h : a.on_budget <;>
        simp [List.filter_cons, h, ih, add_assoc]
  simpa [total_balance_milli] using key 0

theorem update_core_ok (cfg : Config) (ab : List BudgetSummary) (b : Budget)
    (today : String) (s : Store) (m0 : Month) (hab : ab ≠ [])
    (hm0 : b.months.head? = some m0) :
    update_core cfg ab b today s =
      .ok (monthsStage cfg today b.months
            (accountsStage cfg b.accounts
              (storeSet (storeSet (storeSet (storeSet s
                "to_be_budgeted" ((m0.to_be_budgeted : ℚ) / 1000))
                "need_approval" (need_approval_count b : ℚ))
                "uncleared_transactions" (uncleared_count b : ℚ))
                "total_balance"
                  ((total_balance_milli b.accounts : ℚ) / 1000)))) := by
  have h1 : ab.isEmpty = false := by
    cases ab with
    | nil => exact absurd rfl hab
    | cons x t => rfl
  unfold update_core
  rw [h1, hm0]
  rfl

/-- C1: `check_files` returns False if and only if at least one file listed in
REQUIRED_FILES does not exist under the integration's directory in the host
configuration path (modelled by the base path prefixed to each file name);
when every required file is present it returns True. -/
theorem C1_check_files_false_iff_missing (base : String)
    (required : List String) (pathExists : String → Bool) :
    (check_files base required pathExists = false ↔
      ∃ f ∈ required, pathExists (base ++ f) = false) ∧
    (check_files base required pathExists = true ↔
      ∀ f ∈ required, pathExists (base ++ f) = true) := by
  have he : check_files base required pathExists =
      (required.filter (fun f => !pathExists (base ++ f))).isEmpty := by
    unfold check_files
    cases h : (required.filter (fun f => !pathExists (base ++ f))).isEmpty <;>
      simp [h]
  constructor
  · rw [he]
    constructor
    · intro h
      by_contra hc
      push_neg at hc
      have : required.filter (fun f => !pathExists (base ++ f)) = [] := by
        rw [List.filter_eq_nil_iff]
        intro f hf
        simp [hc f hf]
      rw [this] at h
      exact absurd h (by decide)
    · rintro ⟨f, hf, hpe⟩
      have : f ∈ required.filter (fun f => !pathExists (base ++ f)) :=
        List.mem_filter.mpr ⟨hf, by simp [hpe]⟩
      cases hfe : required.filter (fun f => !pathExists (base ++ f)) with
      | nil => rw [hfe] at this; cases this
      | cons x t => rfl
  · rw [he]
    constructor
    · intro h f hf
      have hnil : required.filter (fun f => !pathExists (base ++ f)) = [] := by
        cases hfe : required.filter (fun f => !pathExists (base ++ f)) with
        | nil => rfl
        | cons x t => rw [hfe] at h; simp at h
      by_contra hpe
      have : f ∈ required.filter (fun f => !pathExists (base ++ f)) :=
        List.mem_filter.mpr ⟨hf, by simp at hpe; simp [hpe]⟩
      rw [hnil] at this
      cases this
    · intro h
      have : required.filter (fun f => !pathExists (base ++ f)) = [] := by
        rw [List.filter_eq_nil_iff]
        intro f hf
        simp [h f hf]
      rw [this]
      rfl

/-- C3: if `check_files` returns False or `check_url` returns False during
`async_setup`, then `async_setup` returns False and aborts entirely: it does
not create the shared data dictionary, does not construct the YnabData client,
and does not schedule the loading of any platform. -/
theorem C3_setup_aborts_on_failed_check (file_check url_check : Bool)
    (platforms : List String)
    (h : file_check = false ∨ url_check = false) :
    async_setup file_check url_check platforms =
      ⟨false, false, false, []⟩ := by
  rcases h with h | h
  · subst h
    rfl
  · subst h
    cases file_check <;> rfl

/-- Witness for C3 at a concrete input: the URL check fails while the file
check passes, and setup aborts with nothing created. -/
theorem C3_setup_aborts_on_failed_check_witness :
    ((true : Bool) = false ∨ (false : Bool) = false) ∧
      async_setup true false ["sensor"] = ⟨false, false, false, []⟩ :=
  ⟨Or.inr rfl,
    C3_setup_aborts_on_failed_check true false ["sensor"] (Or.inr rfl)⟩

/-- C4: every exception of the forced-import HTTP call is caught and
`request_import` returns normally, firing no event and leaving the shared
data store unchanged; the refresh that invoked it proceeds with a result
(modulo the fired events) identical to the refresh body run on its own. -/
theorem C4_import_exception_nonfatal (e : String) (cfg : Config)
    (ab : List BudgetSummary) (b : Budget) (today : String) (s : Store) :
    request_import (.exn e) s = ([], s) ∧
    update_data cfg (.exn e) ab b today s =
      (update_core cfg ab b today s).map
        (fun s2 => (([] : List Event), s2)) := by
  refine ⟨rfl, ?_⟩
  simp only [update_data, request_import]
  cases h : update_core cfg ab b today s <;> rfl

/-- C10: when the fetched list of budgets is empty, `update_data` raises (the
code calls `_LOGGER.errors`, an attribute that does not exist on the logger,
so the lookup raises AttributeError) and publishes no metric: the store at
the moment of the raise is the initial store, untouched. -/
theorem C10_empty_budget_list_raises (cfg : Config) (imp : HttpResult)
    (b : Budget) (today : String) (s : Store) :
    update_data cfg imp [] b today s = .error (attribute_error_msg, s) := by
  unfold update_data
  simp only [request_import_snd]
  rfl

/-- C6 counterexample: a forced-import HTTP call that succeeds (status 200,
body parsed, rate-limit header present) but imports zero transaction ids
fires no event, refuting "whenever the import succeeds an event is fired". -/
theorem C6_counterexample_zero_ids :
    (request_import
      (.resp ⟨200, Except.ok ([] : List String), some "200"⟩)
      ([] : Store)).1 = [] := rfl

/-- C6 (amended): whenever the forced transaction import succeeds (status 200
or 201, body parsed to the transaction id list, rate-limit header present)
and at least one transaction id was imported, the component fires the
`<domain>_event` event whose payload carries the number of imported
transaction ids; with zero imported ids no event is fired. -/
theorem C6_import_event_on_success (r : ImportResponse) (s : Store)
    (ids : List String) (hst : r.status = 200 ∨ r.status = 201)
    (hb : r.body = Except.ok ids) (hh : r.rate_limit_header.isSome)
    (hn : 0 < ids.length) :
    (request_import (.resp r) s).1 = [⟨DOMAIN ++ "_event", ids.length⟩] := by
  rcases r with ⟨st, bo, hd⟩
  simp only at hst hb hh
  subst hb
  rcases hd with _ | v
  · simp at hh
  · unfold request_import
    dsimp only
    rw [if_pos hst]
    simp [hn]

/-- Witness for C6 (amended) at a concrete input: one imported id, the event
is fired with count 1. -/
theorem C6_import_event_on_success_witness :
    (((200 : ℕ) = 200 ∨ (200 : ℕ) = 201) ∧
      (Except.ok ["t1"] : Except String (List String)) = Except.ok ["t1"] ∧
      (some "199").isSome = true ∧ 0 < (["t1"] : List String).length) ∧
    (request_import (.resp ⟨200, Except.ok ["t1"], some "199"⟩)
      ([] : Store)).1 = [⟨DOMAIN ++ "_event", 1⟩] :=
  ⟨⟨Or.inl rfl, rfl, rfl, by decide⟩,
    C6_import_event_on_success ⟨200, Except.ok ["t1"], some "199"⟩ [] ["t1"]
      (Or.inl rfl) rfl rfl (by decide)⟩

/-- C5 (throttle modelled from the spec): `update_data` refreshes at most once
every `MIN_TIME_BETWEEN_UPDATES = 300` seconds; if an invocation at time `t1`
performed a refresh, any successive invocation less than 300 seconds later
performs no refresh. -/
theorem C5_throttle_min_interval (st st1 : ThrottleState) (t1 t2 : ℕ)
    (h1 : throttle_invoke st t1 = (true, st1)) (hle : t1 ≤ t2)
    (hlt : t2 - t1 < MIN_TIME_BETWEEN_UPDATES) :
    (throttle_invoke st1 t2).1 = false := by
  have hst1 : st1 = ⟨some t1⟩ := by
    rcases st with ⟨_ | t⟩
    · exact (congrArg Prod.snd h1).symm
    · unfold throttle_invoke at h1
      dsimp only at h1
      split at h1
      · cases h1
      · exact (congrArg Prod.snd h1).symm
  subst hst1
  have hcond : t2 < t1 + MIN_TIME_BETWEEN_UPDATES := by
    unfold MIN_TIME_BETWEEN_UPDATES at hlt ⊢
    omega
  unfold throttle_invoke
  dsimp only
  rw [if_pos hcond]

theorem update_core_ok_inv (cfg : Config) (ab : List BudgetSummary)
    (b : Budget) (today : String) (s s' : Store)
    (heq : update_core cfg ab b today s = Except.ok s') :
    ab ≠ [] ∧ ∃ m0, b.months.head? = some m0 := by
  unfold update_core at heq
  by_cases he : ab.isEmpty = true
  · rw [if_pos he] at heq
    cases heq
  · rw [if_neg he] at heq
    refine ⟨fun h => he (by simp [h]), ?_⟩
    cases hm : b.months.head? with
    | none => rw [hm] at heq; cases heq
    | some m0 => exact ⟨m0, rfl⟩

theorem update_core_ok_shape (cfg : Config) (ab : List BudgetSummary)
    (b : Budget) (today : String) (s s' : Store)
    (heq : update_core cfg ab b today s = Except.ok s') :
    ∃ m0, b.months.head? = some m0 ∧
      s' = monthsStage cfg today b.months
            (accountsStage cfg b.accounts
              (storeSet (storeSet (storeSet (storeSet s
                "to_be_budgeted" ((m0.to_be_budgeted : ℚ) / 1000))
                "need_approval" (need_approval_count b : ℚ))
                "uncleared_transactions" (uncleared_count b : ℚ))
                "total_balance"
                  ((total_balance_milli b.accounts : ℚ) / 1000))) := by
  obtain ⟨hab, m0, hm0⟩ := update_core_ok_inv cfg ab b today s s' heq
  rw [update_core_ok cfg ab b today s m0 hab hm0] at heq
  injection heq with h
  exact ⟨m0, hm0, h.symm⟩

theorem monthsStage_nil (cfg : Config) (today : String) (s : Store) :
    monthsStage cfg today [] s = s := rfl

theorem monthBody_eq_categoriesStage (cfg : Config) (m : Month) (s : Store) :
    monthBody cfg m s =
      categoriesStage cfg m.categories
        (storeSet (storeSet (storeSet (storeSet s
          "budgeted_this_month" ((m.budgeted : ℚ) / 1000))
          "activity_this_month" ((m.activity : ℚ) / 1000))
          "age_of_money" (m.age_of_money : ℚ))
          "overspent_categories" (overspent_count m.categories : ℚ)) := rfl

/-- Witness for C5 at concrete times: a refresh at time 0 followed by an
invocation at time 100 which is skipped. -/
theorem C5_throttle_min_interval_witness :
    (throttle_invoke ⟨none⟩ 0 = (true, ⟨some 0⟩) ∧ (0 : ℕ) ≤ 100 ∧
      100 - 0 < MIN_TIME_BETWEEN_UPDATES) ∧
    (throttle_invoke ⟨some 0⟩ 100).1 = false :=
  ⟨⟨rfl, by decide, by decide⟩,
    C5_throttle_min_interval ⟨none⟩ ⟨some 0⟩ 0 100 rfl (by decide)
      (by decide)⟩

/-- C7: the account loop publishes a value under an account's name iff that
name is in the configured accounts list, and the category loop publishes a
category's balance and budgeted values under its name iff that name is in the
configured categories list; unconfigured accounts and categories are skipped
and their keys in the store are untouched.  (The skip direction for the name
`n` additionally assumes `n` is not a configured category's name suffixed
`_budgeted`, which is the only other key the category loop writes; the
publish direction assumes the written keys are duplicate-free, as distinct
accounts and categories of a budget have distinct names.) -/
theorem C7_publishes_iff_configured (cfg : Config) (accs : List Account)
    (cats : List Category) (s : Store) (n : String) (a : Account)
    (c : Category) (hnacc : n ∉ cfg.accounts) (hncat : n ∉ cfg.categories)
    (hnb : ∀ c' ∈ cats, c'.name ++ "_budgeted" ≠ n)
    (hak : (accountKeys cfg accs).Nodup)
    (hck : (categoryKeys cfg cats).Nodup)
    (ha : a ∈ accs) (hac : a.name ∈ cfg.accounts)
    (hc : c ∈ cats) (hcc : c.name ∈ cfg.categories) :
    storeGet (accountsStage cfg accs s) n = storeGet s n ∧
    storeGet (accountsStage cfg accs s) a.name =
      some ((a.balance : ℚ) / 1000) ∧
    storeGet (categoriesStage cfg cats s) n = storeGet s n ∧
    storeGet (categoriesStage cfg cats s) c.name =
      some ((c.balance : ℚ) / 1000) ∧
    storeGet (categoriesStage cfg cats s) (c.name ++ "_budgeted") =
      some ((c.budgeted : ℚ) / 1000) := by
  have h1 : n ∉ accountKeys cfg accs := by
    rw [mem_accountKeys]
    rintro ⟨a', _, rfl, hmem⟩
    exact hnacc hmem
  have h2 : n ∉ categoryKeys cfg cats := by
    rw [mem_categoryKeys]
    rintro ⟨c', hc', hcc', (rfl | rfl)⟩
    · exact hncat hcc'
    · exact hnb c' hc' rfl
  exact ⟨accountsStage_get_not_mem _ _ _ _ h1,
    accountsStage_get_mem _ _ _ _ hak ha hac,
    categoriesStage_get_not_mem _ _ _ _ h2,
    (categoriesStage_get_mem _ _ _ _ hck hc hcc).1,
    (categoriesStage_get_mem _ _ _ _ hck hc hcc).2⟩

/-- Witness for C7 at a concrete input: the unconfigured account "Savings" is
skipped, the configured account "Checking" and category "Food" are
published. -/
theorem C7_publishes_iff_configured_witness :
    ("Savings" ∉ wCfg.accounts ∧ "Savings" ∉ wCfg.categories ∧
      (accountKeys wCfg wAccounts).Nodup ∧
      (categoryKeys wCfg wCategories).Nodup) ∧
    (storeGet (accountsStage wCfg wAccounts wStore) "Savings" =
        storeGet wStore "Savings" ∧
      storeGet (accountsStage wCfg wAccounts wStore) "Checking" =
        some (((1500 : ℤ) : ℚ) / 1000) ∧
      storeGet (categoriesStage wCfg wCategories wStore) "Savings" =
        storeGet wStore "Savings" ∧
      storeGet (categoriesStage wCfg wCategories wStore) "Food" =
        some (((-250 : ℤ) : ℚ) / 1000) ∧
      storeGet (categoriesStage wCfg wCategories wStore)
          ("Food" ++ "_budgeted") =
        some (((300 : ℤ) : ℚ) / 1000)) :=
  ⟨⟨by decide, by decide, by decide, by decide⟩,
    C7_publishes_iff_configured wCfg wAccounts wCategories wStore "Savings"
      ⟨"Checking", 1500, true⟩ ⟨"Food", -250, 300⟩ (by decide) (by decide)
      (by decide) (by decide) (by decide) (by decide) (by decide) (by decide)
      (by decide)⟩

/-- C8: the published `total_balance` equals the sum of the `balance` field
over exactly the fetched accounts whose `on_budget` field is true, divided by
1000; off-budget accounts contribute nothing.  (The hypotheses state that no
configured account or category of the matching months is named
`total_balance`, so the later loops do not overwrite the metric.) -/
theorem C8_total_balance_on_budget_sum (cfg : Config)
    (ab : List BudgetSummary) (b : Budget) (today : String) (s s' : Store)
    (heq : update_core cfg ab b today s = Except.ok s')
    (hta : "total_balance" ∉ cfg.accounts)
    (htc : ∀ mo ∈ b.months, mo.month = today →
      "total_balance" ∉ categoryKeys cfg mo.categories) :
    storeGet s' "total_balance" =
      some (((((b.accounts.filter (fun a => a.on_budget)).map
        (fun a => a.balance)).sum : ℤ) : ℚ) / 1000) := by
  obtain ⟨m0, hm0, rfl⟩ := update_core_ok_shape cfg ab b today s s' heq
  have hga : "total_balance" ∉ accountKeys cfg b.accounts := by
    rw [mem_accountKeys]
    rintro ⟨a', _, hname, hmem⟩
    exact hta (hname ▸ hmem)
  rw [monthsStage_get_not_mem _ _ _ _ _ (by decide) htc,
    accountsStage_get_not_mem _ _ _ _ hga, storeGet_set_self,
    total_balance_milli_eq]

/-- Witness for C8 at a concrete input: only the on-budget account
(balance 1500) contributes; the off-budget account (balance 2000) does not. -/
theorem C8_total_balance_on_budget_sum_witness :
    (update_core wCfg wAll wBudget "2025-10-01" wStore =
        Except.ok wResult ∧
      "total_balance" ∉ wCfg.accounts) ∧
    storeGet wResult "total_balance" = some (((1500 : ℤ) : ℚ) / 1000) :=
  ⟨⟨rfl, by decide⟩,
    C8_total_balance_on_budget_sum wCfg wAll wBudget "2025-10-01" wStore
      wResult rfl (by decide) (by decide)⟩

/-- C9: the month loop writes only for fetched months whose `month` field
equals today's `%Y-%m-01` string (it behaves as if the month list were
filtered to the matching months), and when no fetched month matches, every
key other than the four keys written before the loops and the configured
account names — in particular `budgeted_this_month`, `activity_this_month`,
`age_of_money`, `overspent_categories` and all per-category keys — is left
unchanged in the shared data store. -/
theorem C9_month_keys_only_for_matching_month (cfg : Config)
    (ab : List BudgetSummary) (b : Budget) (today : String) (s s' : Store)
    (hnm : ∀ mo ∈ b.months, mo.month ≠ today)
    (heq : update_core cfg ab b today s = Except.ok s') :
    (∀ (months : List Month) (s0 : Store),
      monthsStage cfg today months s0 =
        monthsStage cfg today
          (months.filter (fun mo => decide (mo.month = today))) s0) ∧
    (∀ k, k ∉ earlyKeys → k ∉ cfg.accounts →
      storeGet s' k = storeGet s k) := by
  refine ⟨fun months s0 => monthsStage_filter cfg today months s0, ?_⟩
  intro k hke hka
  obtain ⟨m0, hm0, rfl⟩ := update_core_ok_shape cfg ab b today s s' heq
  have hmfilter : b.months.filter (fun mo => decide (mo.month = today)) = [] := by
    rw [List.filter_eq_nil_iff]
    intro mo hmo
    simp [hnm mo hmo]
  rw [monthsStage_filter, hmfilter, monthsStage_nil]
  have hka' : k ∉ accountKeys cfg b.accounts := by
    rw [mem_accountKeys]
    rintro ⟨a', _, hname, hmem⟩
    exact hka (hname ▸ hmem)
  obtain ⟨h1, h2, h3, h4⟩ : k ≠ "to_be_budgeted" ∧ k ≠ "need_approval" ∧
      k ≠ "uncleared_transactions" ∧ k ≠ "total_balance" := by
    simp only [earlyKeys, List.mem_cons, List.not_mem_nil, or_false,
      not_or] at hke
    exact hke
  rw [accountsStage_get_not_mem _ _ _ _ hka',
    storeGet_set_ne _ _ _ _ h4, storeGet_set_ne _ _ _ _ h3,
    storeGet_set_ne _ _ _ _ h2, storeGet_set_ne _ _ _ _ h1]

/-- Witness for C9 at a concrete input: refreshing on a date matching no
fetched month leaves `age_of_money` (and the store's pre-existing `seed`
key) unchanged. -/
theorem C9_month_keys_only_for_matching_month_witness :
    ((∀ mo ∈ wBudget.months, mo.month ≠ "1999-01-01") ∧
      update_core wCfg wAll wBudget "1999-01-01" wStore =
        Except.ok wResultNoMatch) ∧
    (storeGet wResultNoMatch "age_of_money" =
        storeGet wStore "age_of_money" ∧
      storeGet wResultNoMatch "seed" = storeGet wStore "seed") :=
  ⟨⟨by decide, rfl⟩,
    (C9_month_keys_only_for_matching_month wCfg wAll wBudget "1999-01-01"
        wStore wResultNoMatch (by decide) rfl).2 "age_of_money" (by decide)
      (by decide),
    (C9_month_keys_only_for_matching_month wCfg wAll wBudget "1999-01-01"
        wStore wResultNoMatch (by decide) rfl).2 "seed" (by decide)
      (by decide)⟩

/-- C2: for every monetary metric published by a successful refresh —
`to_be_budgeted` (from the first fetched month), `total_balance`, each
configured account's balance, `budgeted_this_month` and
`activity_this_month` (from the single month matching today's `%Y-%m-01`
string), and each configured category's balance and budgeted value — the
stored value equals the corresponding milliunit value from the fetched budget
divided by 1000.  (The hypotheses state that the fixed metric keys do not
collide with configured account or category names and that the keys written
by the loops are duplicate-free, as holds for budgets whose accounts and
categories have distinct names none of which shadows a metric key.) -/
theorem C2_metrics_are_milliunits_div_1000 (cfg : Config)
    (ab : List BudgetSummary) (b : Budget) (today : String) (s s' : Store)
    (m0 m : Month) (hm0 : b.months.head? = some m0)
    (hmatch : b.months.filter (fun mo => decide (mo.month = today)) = [m])
    (heq : update_core cfg ab b today s = Except.ok s')
    (h1a : "to_be_budgeted" ∉ cfg.accounts)
    (h1c : "to_be_budgeted" ∉ categoryKeys cfg m.categories)
    (h2a : "total_balance" ∉ cfg.accounts)
    (h2c : "total_balance" ∉ categoryKeys cfg m.categories)
    (h4c : "budgeted_this_month" ∉ categoryKeys cfg m.categories)
    (h5c : "activity_this_month" ∉ categoryKeys cfg m.categories)
    (hak : (accountKeys cfg b.accounts).Nodup)
    (hck : (categoryKeys cfg m.categories).Nodup)
    (hdisj : ∀ k ∈ accountKeys cfg b.accounts,
      k ∉ monthFixedKeys ∧ k ∉ categoryKeys cfg m.categories) :
    storeGet s' "to_be_budgeted" = some ((m0.to_be_budgeted : ℚ) / 1000) ∧
    storeGet s' "total_balance" =
      some ((total_balance_milli b.accounts : ℚ) / 1000) ∧
    (∀ a ∈ b.accounts, a.name ∈ cfg.accounts →
      storeGet s' a.name = some ((a.balance : ℚ) / 1000)) ∧
    storeGet s' "budgeted_this_month" = some ((m.budgeted : ℚ) / 1000) ∧
    storeGet s' "activity_this_month" = some ((m.activity : ℚ) / 1000) ∧
    (∀ c ∈ m.categories, c.name ∈ cfg.categories →
      storeGet s' c.name = some ((c.balance : ℚ) / 1000) ∧
      storeGet s' (c.name ++ "_budgeted") =
        some ((c.budgeted : ℚ) / 1000)) := by
  obtain ⟨m0', hm0', rfl⟩ := update_core_ok_shape cfg ab b today s s' heq
  have hm00 : m0' = m0 := Option.some.inj (hm0'.symm.trans hm0)
  subst hm00
  have hmB := monthsStage_single cfg today b.months
    (accountsStage cfg b.accounts
      (storeSet (storeSet (storeSet (storeSet s
        "to_be_budgeted" ((m0'.to_be_budgeted : ℚ) / 1000))
        "need_approval" (need_approval_count b : ℚ))
        "uncleared_transactions" (uncleared_count b : ℚ))
        "total_balance" ((total_balance_milli b.accounts : ℚ) / 1000)))
    m hmatch
  rw [hmB]
  have hga1 : "to_be_budgeted" ∉ accountKeys cfg b.accounts := by
    rw [mem_accountKeys]
    rintro ⟨a', _, hname, hmem⟩
    exact h1a (hname ▸ hmem)
  have hga2 : "total_balance" ∉ accountKeys cfg b.accounts := by
    rw [mem_accountKeys]
    rintro ⟨a', _, hname, hmem⟩
    exact h2a (hname ▸ hmem)
  refine ⟨?_, ?_, ?_, ?_, ?_, ?_⟩
  · rw [monthBody_get_not_mem _ _ _ _ (by decide) h1c,
      accountsStage_get_not_mem _ _ _ _ hga1,
      storeGet_set_ne _ _ _ _ (by decide),
      storeGet_set_ne _ _ _ _ (by decide),
      storeGet_set_ne _ _ _ _ (by decide), storeGet_set_self]
  · rw [monthBody_get_not_mem _ _ _ _ (by decide) h2c,
      accountsStage_get_not_mem _ _ _ _ hga2, storeGet_set_self]
  · intro a ha hac
    have hmem : a.name ∈ accountKeys cfg b.accounts :=
      (mem_accountKeys cfg b.accounts a.name).mpr ⟨a, ha, rfl, hac⟩
    obtain ⟨hfk, hck'⟩ := hdisj a.name hmem
    rw [monthBody_get_not_mem _ _ _ _ hfk hck',
      accountsStage_get_mem _ _ _ _ hak ha hac]
  · exact monthBody_get_budgeted cfg m _ h4c
  · exact monthBody_get_activity cfg m _ h5c
  · intro c hc hcc
    rw [monthBody_eq_categoriesStage]
    exact categoriesStage_get_mem cfg m.categories _ c hck hc hcc

/-- Witness for C2 at a concrete input: `to_be_budgeted` is 100/1000,
`total_balance` is 1500/1000, the configured account "Checking" is 1500/1000,
`budgeted_this_month` is 400/1000, `activity_this_month` is -150/1000, and
the configured category "Food" is -250/1000 with budgeted 300/1000. -/
theorem C2_metrics_are_milliunits_div_1000_witness :
    (wBudget.months.head? = some wMonth ∧
      wBudget.months.filter (fun mo => decide (mo.month = "2025-10-01")) =
        [wMonth] ∧
      update_core wCfg wAll wBudget "2025-10-01" wStore =
        Except.ok wResult) ∧
    (storeGet wResult "to_be_budgeted" = some (((100 : ℤ) : ℚ) / 1000) ∧
      storeGet wResult "total_balance" = some (((1500 : ℤ) : ℚ) / 1000) ∧
      storeGet wResult "Checking" = some (((1500 : ℤ) : ℚ) / 1000) ∧
      storeGet wResult "budgeted_this_month" =
        some (((400 : ℤ) : ℚ) / 1000) ∧
      storeGet wResult "activity_this_month" =
        some (((-150 : ℤ) : ℚ) / 1000) ∧
      storeGet wResult "Food" = some (((-250 : ℤ) : ℚ) / 1000) ∧
      storeGet wResult ("Food" ++ "_budgeted") =
        some (((300 : ℤ) : ℚ) / 1000)) := by
  have T := C2_metrics_are_milliunits_div_1000 wCfg wAll wBudget "2025-10-01"
    wStore wResult wMonth wMonth rfl (by decide) rfl (by decide) (by decide)
    (by decide) (by decide) (by decide) (by decide) (by decide) (by decide)
    (by decide)
  refine ⟨⟨rfl, by decide, rfl⟩, T.1, T.2.1, ?_, T.2.2.2.1, T.2.2.2.2.1,
    ?_, ?_⟩
  · exact T.2.2.1 ⟨"Checking", 1500, true⟩ (by decide) (by decide)
  · exact (T.2.2.2.2.2 ⟨"Food", -250, 300⟩ (by decide) (by decide)).1
  · exact (T.2.2.2.2.2 ⟨"Food", -250, 300⟩ (by decide) (by decide)).2

end Ynab
